import Mathlib

/-!
Verification of the product-catalog query service (`products` app):
the filter-composition layer (`ProductQuerySet.search_products`), the
service layer (`ProductSearchService`), and the HTTP boundary
(`ProductSearchView`, `ProductDetailView`).

The store is modelled as a plain list of rows.  Machine integers are
`Int`/`Nat`; the fixed-point `DecimalField(max_digits=10, decimal_places=2)`
is modelled as an `Int` count of cents; arbitrary-precision decimals parsed
at the HTTP boundary (`decimal.Decimal`) are modelled as `Rat`.
-/

/-- `Category` row (models.py, class Category): id, name, description,
is_active, created_at. `created_at` is an abstract timestamp. -/
structure Category where
  id : Int
  name : String
  description : String
  is_active : Bool
  created_at : Nat
deriving DecidableEq, Repr

/-- `Product` row (models.py, class Product): id, sku, name,
price (fixed-point decimal, modelled as cents), is_active,
category (foreign-key id), created_at, description. -/
structure Product where
  id : Int
  sku : String
  name : String
  price : Int
  is_active : Bool
  category : Int
  created_at : Nat
  description : String
deriving DecidableEq, Repr

/-- The stored fixed-point price as an exact rational (cents / 100),
used when the database compares a stored price against a parsed
`decimal.Decimal` bound. -/
def priceRat (p : Product) : Rat := (p.price : Rat) / 100

/-- `ProductQuerySet.active_products`: `self.filter(is_active=True)`. -/
def active_products (ps : List Product) : List Product :=
  ps.filter (fun p => p.is_active)

/-- `ProductQuerySet.by_category`: `self.filter(category_id=category_id)`. -/
def by_category (ps : List Product) (category_id : Int) : List Product :=
  ps.filter (fun p => p.category == category_id)

/-- `ProductQuerySet.by_price_range`:
`self.filter(price__range=(min_price, max_price))`, inclusive on both ends. -/
def by_price_range (ps : List Product) (min_price max_price : Rat) :
    List Product :=
  ps.filter (fun p =>
    decide (min_price ≤ priceRat p) && decide (priceRat p ≤ max_price))

/-- Stable insertion of a product into a list already ordered by
`created_at` descending: walk past rows with strictly larger key, so rows
with an equal key keep their relative order. -/
def insert_created_desc (p : Product) : List Product → List Product
  | [] => [p]
  | q :: qs =>
    if p.created_at < q.created_at then q :: insert_created_desc p qs
    else p :: q :: qs

/-- `order_by('-created_at')` (models.py line 54).  The SQL emitted orders
by `created_at` descending ONLY; the relative order of rows with equal
`created_at` is not constrained by the query, and is modelled here as the
store order (stable sort). -/
def order_by_created_desc : List Product → List Product
  | [] => []
  | p :: ps => insert_created_desc p (order_by_created_desc ps)

/-- `ProductQuerySet.search_products(category_id=None, min_price=None,
max_price=None)` (models.py lines 37-54): start from `active_products()`;
`if category_id:` (Python truthiness, so `0` and `None` both skip the
filter) apply `by_category`; if BOTH price bounds are not `None` apply
`by_price_range`; finally `select_related('category')` (a join, no effect
on the row set — modelled in the round-trip accounting below) and
`order_by('-created_at')`. -/
def search_products (ps : List Product) (category_id : Option Int)
    (min_price max_price : Option Rat) : List Product :=
  let queryset := active_products ps
  let queryset :=
    match category_id with
    | some c => if c = 0 then queryset else by_category queryset c
    | none => queryset
  let queryset :=
    match min_price, max_price with
    | some mn, some mx => by_price_range queryset mn mx
    | _, _ => queryset
  order_by_created_desc queryset

/-- `ProductSearchService.get_product_detail` (services.py line 36):
`Product.objects.select_related('category').get(id=product_id)`.
`id` is the primary key, unique in the store, so `.get` is a first-match
lookup; `DoesNotExist` is modelled as `none`. -/
def get_product_detail (ps : List Product) (product_id : Int) :
    Option Product :=
  ps.find? (fun p => p.id == product_id)

/-! ### JSON values and HTTP responses -/

/-- JSON values as produced by `JsonResponse`.  A number is an `Int`
(the bodies built by views.py only ever place `id` and `count` integers
in number position; `price` is always a string). -/
inductive Json where
  | str : String → Json
  | num : Int → Json
  | bool : Bool → Json
  | null : Json
  | arr : List Json → Json
  | obj : List (String × Json) → Json
deriving Repr

/-- An HTTP response: status code plus JSON body. -/
structure Response where
  status : Nat
  body : Json
deriving Repr

/-- Field lookup in a JSON object (first binding wins). -/
def json_field (j : Json) (key : String) : Option Json :=
  match j with
  | Json.obj fields => fields.lookup key
  | _ => none

/-! ### Digits, decimal parsing and fixed-point formatting

`decimal.Decimal(string)` and `int(string)` are library functions; they
are modelled here on the sign/digits/fraction fragment that the handlers
can meet (no exponents, no NaN/Infinity, no embedded whitespace). -/

/-- The ten ASCII digit characters. -/
def digit_char : Nat → Char
  | 0 => '0' | 1 => '1' | 2 => '2' | 3 => '3' | 4 => '4'
  | 5 => '5' | 6 => '6' | 7 => '7' | 8 => '8' | _ => '9'

def is_digit (ch : Char) : Bool :=
  decide (48 ≤ ch.toNat) && decide (ch.toNat ≤ 57)

def digit_val (ch : Char) : Nat := ch.toNat - 48

/-- Value of a digit string, most significant digit first. -/
def digits_to_nat (l : List Char) : Nat :=
  l.foldl (fun acc ch => acc * 10 + digit_val ch) 0

/-- Fuelled digit-expansion loop (structural recursion on the fuel so
that concrete values reduce inside the kernel); `acc` collects the less
significant digits already produced. -/
def nat_to_chars_core : Nat → Nat → List Char → List Char
  | 0, _, acc => acc
  | fuel + 1, n, acc =>
    if n < 10 then digit_char n :: acc
    else nat_to_chars_core fuel (n / 10) (digit_char (n % 10) :: acc)

/-- Decimal digit expansion of a natural number, most significant first
(`n + 1` units of fuel always suffice since `n / 10 < n`). -/
def nat_to_chars (n : Nat) : List Char :=
  nat_to_chars_core (n + 1) n []

/-- Split a character list at the first `.` (the dot stays in the second
component). -/
def split_at_dot : List Char → List Char × List Char
  | [] => ([], [])
  | ch :: rest =>
    if ch = '.' then ([], ch :: rest)
    else
      let r := split_at_dot rest
      (ch :: r.1, r.2)

/-- Unsigned decimal literal: `digits`, `digits.digits`, `digits.` or
`.digits` (at least one digit overall), as accepted by `decimal.Decimal`. -/
def parse_unsigned_decimal (l : List Char) : Option Rat :=
  let parts := split_at_dot l
  match parts.2 with
  | [] =>
    if parts.1 ≠ [] ∧ parts.1.all is_digit then
      some ((digits_to_nat parts.1 : Nat) : Rat)
    else none
  | _ :: fp =>
    if (parts.1 ≠ [] ∨ fp ≠ []) ∧ parts.1.all is_digit ∧ fp.all is_digit then
      some (((digits_to_nat parts.1 : Nat) : Rat)
        + ((digits_to_nat fp : Nat) : Rat) / (10 : Rat) ^ fp.length)
    else none

/-- `decimal.Decimal(s)` on the sign/digits/fraction fragment;
`none` models `decimal.InvalidOperation`. -/
def parse_decimal_chars (l : List Char) : Option Rat :=
  match l with
  | [] => none
  | ch :: rest =>
    if ch = '-' then (parse_unsigned_decimal rest).map (fun q => -q)
    else if ch = '+' then parse_unsigned_decimal rest
    else parse_unsigned_decimal l

def parse_decimal (s : String) : Option Rat :=
  parse_decimal_chars s.toList

/-- `int(s)` on the sign/digits fragment; `none` models `ValueError`. -/
def parse_int (s : String) : Option Int :=
  match s.toList with
  | [] => none
  | ch :: rest =>
    if ch = '-' then
      if rest ≠ [] ∧ rest.all is_digit then some (-(digits_to_nat rest : Int))
      else none
    else if ch = '+' then
      if rest ≠ [] ∧ rest.all is_digit then some ((digits_to_nat rest : Int))
      else none
    else
      if (ch :: rest).all is_digit then
        some ((digits_to_nat (ch :: rest) : Int))
      else none

/-- `str(product.price)` for a `DecimalField(decimal_places=2)` value:
optional sign, integer digits, a dot, then exactly two fraction digits
(`Decimal` keeps the stored scale, e.g. `"599.99"`, `"0.50"`, `"-5.00"`). -/
def format_price_chars (cents : Int) : List Char :=
  let n := cents.natAbs
  let body := nat_to_chars (n / 100)
    ++ '.' :: [digit_char (n % 100 / 10), digit_char (n % 100 % 10)]
  if cents < 0 then '-' :: body else body

def format_price (cents : Int) : String :=
  String.mk (format_price_chars cents)

/-! ### HTTP handlers (views.py) -/

/-- `ProductSearchView._get_category_id` (views.py lines 89-97):
`if category_id:` — a missing or empty parameter (falsy string) yields
`None`; otherwise `int(category_id)`, with failure raising
`ValueError('category_id must be a valid number')`. -/
def get_category_id (param : Option String) : Except String (Option Int) :=
  match param with
  | none => Except.ok none
  | some s =>
    if s = "" then Except.ok none
    else
      match parse_int s with
      | some n => Except.ok (some n)
      | none => Except.error "category_id must be a valid number"

/-- One price parameter of `ProductSearchView._get_price_range`
(views.py lines 107-123).  The code is

    try:
        min_price = decimal.Decimal(min_price_str)
        if min_price < 0:
            raise ValueError('Price cannot be negative')
    except (ValueError, decimal.InvalidOperation):
        raise ValueError('min_price must be a valid dollar amount')

the `ValueError('Price cannot be negative')` is raised INSIDE the `try`
whose own `except` clause catches `ValueError`, so a negative value is
re-reported as `tag ++ " must be a valid dollar amount"` exactly like a
parse failure; the negative-specific message never escapes. -/
def parse_price_param (tag : String) (param : Option String) :
    Except String (Option Rat) :=
  match param with
  | none => Except.ok none
  | some s =>
    if s = "" then Except.ok none
    else
      match parse_decimal s with
      | some v =>
        if v < 0 then Except.error (tag ++ " must be a valid dollar amount")
        else Except.ok (some v)
      | none => Except.error (tag ++ " must be a valid dollar amount")

/-- `ProductSearchView._get_price_range` (views.py lines 99-125):
parse `min_price` first, then `max_price`. -/
def get_price_range (min_param max_param : Option String) :
    Except String (Option Rat × Option Rat) :=
  match parse_price_param "min_price" min_param with
  | Except.error e => Except.error e
  | Except.ok mn =>
    match parse_price_param "max_price" max_param with
    | Except.error e => Except.error e
    | Except.ok mx => Except.ok (mn, mx)

/-- A 400 response `{'success': False, 'error': msg}`. -/
def bad_request (msg : String) : Response :=
  ⟨400, Json.obj [("success", Json.bool false), ("error", Json.str msg)]⟩

/-- Abstract rendering of a timestamp as its ISO-8601 string
(`created_at.isoformat()`); the claims never inspect its shape. -/
def iso_format (t : Nat) : String := toString t

/-- The nested `'category': {'id': ..., 'name': ...}` object; the category
row comes from the `select_related('category')` join. -/
def category_json (cats : List Category) (category_id : Int) : Json :=
  match cats.find? (fun c => c.id == category_id) with
  | some c => Json.obj [("id", Json.num c.id), ("name", Json.str c.name)]
  | none => Json.null

/-- One element of `products_data` in `ProductSearchView.get`
(views.py lines 48-60).  `price` is `str(product.price)` — a string,
explicitly converted, never a native float. -/
def serialize_product (cats : List Category) (p : Product) : Json :=
  Json.obj [
    ("id", Json.num p.id),
    ("sku", Json.str p.sku),
    ("name", Json.str p.name),
    ("price", Json.str (format_price p.price)),
    ("is_active", Json.bool p.is_active),
    ("category", category_json cats p.category),
    ("created_at", Json.str (iso_format p.created_at)),
    ("description", Json.str p.description)]

/-- The `filters_applied` echo.  `JsonResponse`'s encoder renders a
`Decimal` via `str`; the exact text for the echoed bounds is abstracted
with `toString` (no claim inspects it). -/
def filters_json (cid : Option Int) (mn mx : Option Rat) : Json :=
  Json.obj [
    ("category_id", match cid with | some c => Json.num c | none => Json.null),
    ("min_price", match mn with | some v => Json.str (toString v) | none => Json.null),
    ("max_price", match mx with | some v => Json.str (toString v) | none => Json.null)]

/-- The 200 body of a successful search (views.py lines 63-68). -/
def search_success (store : List Product) (cats : List Category)
    (cid : Option Int) (mn mx : Option Rat) : Response :=
  let results := search_products store cid mn mx
  ⟨200, Json.obj [
    ("success", Json.bool true),
    ("products", Json.arr (results.map (serialize_product cats))),
    ("count", Json.num results.length),
    ("filters_applied", filters_json cid mn mx)]⟩

/-- `ProductSearchView.get` (views.py lines 17-87): parse `category_id`,
then the price range; a `ValueError` from either helper is caught and
wrapped as `'Invalid parameter: ' + str(e)` with status 400; then, if both
bounds are present and `min_price > max_price`, return 400 with
`'Minimum price cannot be greater than maximum price'` (unwrapped);
otherwise run the search and serialize. -/
def product_search_view (store : List Product) (cats : List Category)
    (category_param min_param max_param : Option String) : Response :=
  match get_category_id category_param with
  | Except.error e => bad_request ("Invalid parameter: " ++ e)
  | Except.ok cid =>
    match get_price_range min_param max_param with
    | Except.error e => bad_request ("Invalid parameter: " ++ e)
    | Except.ok (mn, mx) =>
      match mn, mx with
      | some a, some b =>
        if a > b then
          bad_request "Minimum price cannot be greater than maximum price"
        else search_success store cats cid mn mx
      | _, _ => search_success store cats cid mn mx

/-- The 404 body of the detail view (views.py lines 170-174). -/
def product_not_found : Response :=
  ⟨404, Json.obj [("success", Json.bool false),
                  ("error", Json.str "Product not found")]⟩

/-- The single-product body of `ProductDetailView.get`
(views.py lines 151-163; note `description` precedes `created_at` here). -/
def serialize_product_detail (cats : List Category) (p : Product) : Json :=
  Json.obj [
    ("id", Json.num p.id),
    ("sku", Json.str p.sku),
    ("name", Json.str p.name),
    ("price", Json.str (format_price p.price)),
    ("is_active", Json.bool p.is_active),
    ("category", category_json cats p.category),
    ("description", Json.str p.description),
    ("created_at", Json.str (iso_format p.created_at))]

/-- `ProductDetailView.get` (views.py lines 133-174).  The URL pattern
`<int:product_id>` already delivers an integer, so the `isdigit` guard
passes; the keyed lookup either succeeds (200) or raises
`ObjectDoesNotExist`, mapped to the 404 body. -/
def product_detail_view (store : List Product) (cats : List Category)
    (product_id : Int) : Response :=
  match get_product_detail store product_id with
  | some p => ⟨200, Json.obj [("success", Json.bool true),
                              ("product", serialize_product_detail cats p)]⟩
  | none => product_not_found

/-! ### Store round-trip accounting (select_related)

`select_related('category')` turns the search query into a single joined
query: each returned row already carries its category row.  Reading
`product.category` on a row that was NOT eager-loaded costs one extra
lazy query; on an eager-loaded row it costs none.  One evaluation of the
queryset costs one round trip. -/

/-- A row as returned by the joined query: the product together with the
category row attached by `select_related('category')`. -/
def joined_rows (store : List Product) (cats : List Category)
    (cid : Option Int) (mn mx : Option Rat) :
    List (Product × Option Category) :=
  (search_products store cid mn mx).map
    (fun p => (p, cats.find? (fun c => c.id == p.category)))

/-- Extra store queries incurred by reading `row.category` during
serialization: none when the join attached the category, one lazy load
otherwise. -/
def category_access_cost (row : Product × Option Category) : Nat :=
  match row.2 with
  | some _ => 0
  | none => 1

/-- Total store round trips of one search request: one for evaluating the
queryset, plus the lazy loads triggered while serializing each row. -/
def search_round_trips (store : List Product) (cats : List Category)
    (cid : Option Int) (mn mx : Option Rat) : Nat :=
  1 + ((joined_rows store cats cid mn mx).map category_access_cost).sum

/-! ### Concrete fixtures (mirroring the test data in tests.py) -/

def electronics : Category :=
  ⟨1, "Electronics", "Phones, laptops, gadgets", true, 0⟩

def smartphone : Product :=
  ⟨1, "PHONE001", "Smartphone", 59999, true, 1, 10, ""⟩

def laptop : Product :=
  ⟨2, "LAPTOP001", "Gaming Laptop", 129999, true, 1, 11, ""⟩

def old_tablet : Product :=
  ⟨3, "TABLET001", "Old Tablet", 19999, false, 1, 12, ""⟩

def demo_store : List Product := [smartphone, laptop, old_tablet]

/-- Two active products sharing one `created_at`, stored with the
smaller id first. -/
def tie_first : Product := ⟨1, "TIE001", "First", 1000, true, 1, 5, ""⟩

def tie_second : Product := ⟨2, "TIE002", "Second", 2000, true, 1, 5, ""⟩

/-! ### Helper lemmas -/

theorem mem_insert_created_desc {x p : Product} {l : List Product} :
    x ∈ insert_created_desc p l ↔ x = p ∨ x ∈ l := by
  induction l with
  | nil => simp [insert_created_desc]
  | cons q qs ih =>
    by_cases h : p.created_at < q.created_at
    · simp only [insert_created_desc, if_pos h, List.mem_cons, ih]
      tauto
    · simp only [insert_created_desc, if_neg h, List.mem_cons]

theorem mem_order_by_created_desc {x : Product} {l : List Product} :
    x ∈ order_by_created_desc l ↔ x ∈ l := by
  induction l with
  | nil => simp [order_by_created_desc]
  | cons p ps ih =>
    simp only [order_by_created_desc, mem_insert_created_desc, ih,
      List.mem_cons]

theorem pairwise_insert_created_desc {p : Product} {l : List Product}
    (h : l.Pairwise (fun a b => b.created_at ≤ a.created_at)) :
    (insert_created_desc p l).Pairwise
      (fun a b => b.created_at ≤ a.created_at) := by
  induction l with
  | nil => simp [insert_created_desc]
  | cons q qs ih =>
    rcases List.pairwise_cons.mp h with ⟨hq, hqs⟩
    by_cases hlt : p.created_at < q.created_at
    · rw [insert_created_desc, if_pos hlt]
      refine List.pairwise_cons.mpr ⟨?_, ih hqs⟩
      intro x hx
      rcases mem_insert_created_desc.mp hx with hxp | hxq
      · subst hxp; exact Nat.le_of_lt hlt
      · exact hq x hxq
    · rw [insert_created_desc, if_neg hlt]
      refine List.pairwise_cons.mpr ⟨?_, h⟩
      intro x hx
      rcases List.mem_cons.mp hx with hxq | hxqs
      · subst hxq; omega
      · exact Nat.le_trans (hq x hxqs) (by omega)

theorem pairwise_order_by_created_desc (l : List Product) :
    (order_by_created_desc l).Pairwise
      (fun a b => b.created_at ≤ a.created_at) := by
  induction l with
  | nil => simp [order_by_created_desc]
  | cons p ps ih =>
    exact pairwise_insert_created_desc ih

theorem digit_char_is_digit : ∀ m, m < 10 → is_digit (digit_char m) = true := by
  decide

theorem digit_val_digit_char : ∀ m, m < 10 → digit_val (digit_char m) = m := by
  decide

theorem is_digit_ne_dash {ch : Char} (h : is_digit ch = true) : ch ≠ '-' := by
  intro he; subst he; simp [is_digit] at h

theorem is_digit_ne_plus {ch : Char} (h : is_digit ch = true) : ch ≠ '+' := by
  intro he; subst he; simp [is_digit] at h

theorem is_digit_ne_dot {ch : Char} (h : is_digit ch = true) : ch ≠ '.' := by
  intro he; subst he; simp [is_digit] at h

theorem nat_to_chars_core_append :
    ∀ n fuel acc, n < fuel →
      nat_to_chars_core fuel n acc = nat_to_chars_core fuel n [] ++ acc := by
  intro n
  induction n using Nat.strong_induction_on with
  | _ n ih =>
    intro fuel acc hfuel
    match fuel with
    | f + 1 =>
      by_cases h : n < 10
      · simp [nat_to_chars_core, h]
      · have hdiv : n / 10 < n := Nat.div_lt_self (by omega) (by omega)
        have hf : n / 10 < f := by omega
        rw [nat_to_chars_core, if_neg h, nat_to_chars_core, if_neg h,
          ih (n / 10) hdiv f (digit_char (n % 10) :: acc) hf,
          ih (n / 10) hdiv f [digit_char (n % 10)] hf]
        simp

theorem nat_to_chars_core_fuel_irrel :
    ∀ n fuel₁ fuel₂, n < fuel₁ → n < fuel₂ →
      nat_to_chars_core fuel₁ n [] = nat_to_chars_core fuel₂ n [] := by
  intro n
  induction n using Nat.strong_induction_on with
  | _ n ih =>
    intro fuel₁ fuel₂ h1 h2
    match fuel₁, fuel₂ with
    | f₁ + 1, f₂ + 1 =>
      by_cases h : n < 10
      · simp [nat_to_chars_core, h]
      · have hdiv : n / 10 < n := Nat.div_lt_self (by omega) (by omega)
        rw [nat_to_chars_core, if_neg h, nat_to_chars_core, if_neg h,
          nat_to_chars_core_append (n / 10) f₁ [digit_char (n % 10)]
            (by omega),
          nat_to_chars_core_append (n / 10) f₂ [digit_char (n % 10)]
            (by omega),
          ih (n / 10) hdiv f₁ f₂ (by omega) (by omega)]

theorem nat_to_chars_unfold (n : Nat) (h : 10 ≤ n) :
    nat_to_chars n = nat_to_chars (n / 10) ++ [digit_char (n % 10)] := by
  have hdiv : n / 10 < n := Nat.div_lt_self (by omega) (by omega)
  rw [nat_to_chars, nat_to_chars_core, if_neg (by omega),
    nat_to_chars_core_append _ _ _ (by omega),
    nat_to_chars_core_fuel_irrel (n / 10) n (n / 10 + 1) (by omega) (by omega)]
  rfl

theorem nat_to_chars_small (n : Nat) (h : n < 10) :
    nat_to_chars n = [digit_char n] := by
  rw [nat_to_chars, nat_to_chars_core, if_pos h]

theorem digits_to_nat_append_singleton (l : List Char) (d : Char) :
    digits_to_nat (l ++ [d]) = digits_to_nat l * 10 + digit_val d := by
  simp [digits_to_nat, List.foldl_append]

theorem nat_to_chars_spec :
    ∀ n, (nat_to_chars n).all is_digit = true ∧ nat_to_chars n ≠ [] ∧
      digits_to_nat (nat_to_chars n) = n := by
  intro n
  induction n using Nat.strong_induction_on with
  | _ n ih =>
    by_cases h : n < 10
    · rw [nat_to_chars_small n h]
      refine ⟨?_, by simp, ?_⟩
      · simp [digit_char_is_digit n h]
      · simp [digits_to_nat, digit_val_digit_char n h]
    · have hdiv : n / 10 < n := Nat.div_lt_self (by omega) (by omega)
      rcases ih (n / 10) hdiv with ⟨ha, hne, hv⟩
      rw [nat_to_chars_unfold n (by omega)]
      refine ⟨?_, by simp, ?_⟩
      · simp only [List.all_append, ha, Bool.true_and, List.all_cons,
          List.all_nil, Bool.and_true]
        exact digit_char_is_digit _ (Nat.mod_lt _ (by omega))
      · rw [digits_to_nat_append_singleton, hv,
          digit_val_digit_char _ (Nat.mod_lt _ (by omega))]
        omega

theorem split_at_dot_digits (a b : List Char) (h : a.all is_digit = true) :
    split_at_dot (a ++ '.' :: b) = (a, '.' :: b) := by
  induction a with
  | nil => simp [split_at_dot]
  | cons x xs ih =>
    simp only [List.all_cons, Bool.and_eq_true] at h
    have hx := is_digit_ne_dot h.1
    simp [split_at_dot, hx, ih h.2]

theorem parse_unsigned_body (n : Nat) :
    parse_unsigned_decimal (nat_to_chars (n / 100) ++ '.' ::
        [digit_char (n % 100 / 10), digit_char (n % 100 % 10)]) =
      some ((n : Rat) / 100) := by
  rcases nat_to_chars_spec (n / 100) with ⟨ha, hne, hv⟩
  have hd1 : is_digit (digit_char (n % 100 / 10)) = true :=
    digit_char_is_digit _ (by omega)
  have hd2 : is_digit (digit_char (n % 100 % 10)) = true :=
    digit_char_is_digit _ (by omega)
  simp only [parse_unsigned_decimal, split_at_dot_digits _ _ ha]
  rw [if_pos ⟨Or.inl hne, by simp [ha, hd1, hd2]⟩]
  have hfrac : digits_to_nat
      [digit_char (n % 100 / 10), digit_char (n % 100 % 10)] = n % 100 := by
    simp [digits_to_nat, digit_val_digit_char _ (show n % 100 / 10 < 10 by omega),
      digit_val_digit_char _ (show n % 100 % 10 < 10 by omega)]
    omega
  rw [hv, hfrac]
  congr 1
  have hn : (n : Rat) = ((100 * (n / 100) + n % 100 : Nat) : Rat) := by
    rw [Nat.div_add_mod]
  rw [hn]
  push_cast
  norm_num
  ring

theorem parse_decimal_format_price (cents : Int) :
    parse_decimal (format_price cents) = some ((cents : Rat) / 100) := by
  have hl : (String.mk (format_price_chars cents)).toList =
      format_price_chars cents := rfl
  rw [parse_decimal, format_price, hl, format_price_chars]
  rcases nat_to_chars_spec (cents.natAbs / 100) with ⟨ha, hne, hv⟩
  obtain ⟨d, tl, hd⟩ : ∃ d tl,
      nat_to_chars (cents.natAbs / 100) = d :: tl := by
    cases hcase : nat_to_chars (cents.natAbs / 100) with
    | nil => exact absurd hcase hne
    | cons d tl => exact ⟨d, tl, rfl⟩
  have hdig : is_digit d = true := by
    rw [hd] at ha
    simp only [List.all_cons, Bool.and_eq_true] at ha
    exact ha.1
  by_cases hneg : cents < 0
  · rw [if_pos hneg]
    simp only [parse_decimal_chars, reduceIte, parse_unsigned_body]
    have habs : ((cents.natAbs : Nat) : Rat) = -(cents : Rat) := by
      rw [Int.cast_natAbs, abs_of_neg hneg]
      push_cast
      ring
    rw [habs]
    simp only [Option.map_some']
    congr 1
    ring
  · rw [if_neg hneg]
    rw [hd, List.cons_append]
    simp only [parse_decimal_chars, if_neg (is_digit_ne_dash hdig),
      if_neg (is_digit_ne_plus hdig)]
    rw [← List.cons_append, ← hd, parse_unsigned_body]
    have habs : ((cents.natAbs : Nat) : Rat) = (cents : Rat) := by
      rw [Int.cast_natAbs, abs_of_nonneg (not_lt.mp hneg)]
    rw [habs]

theorem mem_active_products {p : Product} {ps : List Product} :
    p ∈ active_products ps ↔ p ∈ ps ∧ p.is_active = true := by
  simp [active_products, List.mem_filter]

theorem mem_by_category {p : Product} {ps : List Product} {c : Int} :
    p ∈ by_category ps c ↔ p ∈ ps ∧ p.category = c := by
  simp [by_category, List.mem_filter]

theorem mem_by_price_range {p : Product} {ps : List Product} {a b : Rat} :
    p ∈ by_price_range ps a b ↔
      p ∈ ps ∧ a ≤ priceRat p ∧ priceRat p ≤ b := by
  simp [by_price_range, List.mem_filter, and_assoc]

theorem mem_search_products {p : Product} {ps : List Product}
    {cid : Option Int} {mp xp : Option Rat} :
    p ∈ search_products ps cid mp xp ↔
      p ∈ ps ∧ p.is_active = true ∧
      (∀ c, cid = some c → c ≠ 0 → p.category = c) ∧
      (∀ a b, mp = some a → xp = some b →
        a ≤ priceRat p ∧ priceRat p ≤ b) := by
  rcases cid with _ | c
  · rcases mp with _ | a <;> rcases xp with _ | b <;>
      simp [search_products, mem_order_by_created_desc, mem_active_products,
        mem_by_category, mem_by_price_range] <;> tauto
  · by_cases hc : c = 0 <;>
      rcases mp with _ | a <;> rcases xp with _ | b <;>
      simp [search_products, hc, mem_order_by_created_desc,
        mem_active_products, mem_by_category, mem_by_price_range] <;> tauto

/-! ### Claims -/

/-- C1 counterexample: with `category_id = 0` supplied, the Python
truthiness test `if category_id:` in `search_products` skips the category
filter entirely, so an active product whose category is `1 ≠ 0` is still
returned — contradicting the claim that a returned product's category
equals every supplied `categoryId`. -/
theorem search_zero_category_counterexample :
    smartphone ∈ search_products demo_store (some 0) none none ∧
    smartphone.category ≠ 0 := by decide

/-- C1 (amended): a product `p` appears in `search_products` iff it is in
the store, is active, matches any supplied NONZERO category id (a supplied
`category_id = 0` is skipped by truthiness, as if absent), and, when both
price bounds were supplied, satisfies `min ≤ price ≤ max` inclusively;
moreover every filtered result set is a subset of the unfiltered one. -/
theorem search_membership_characterization :
    ∀ (store : List Product) (cid : Option Int) (mp xp : Option Rat)
      (p : Product),
      (p ∈ search_products store cid mp xp ↔
        p ∈ store ∧ p.is_active = true ∧
        (∀ c, cid = some c → c ≠ 0 → p.category = c) ∧
        (∀ a b, mp = some a → xp = some b →
          a ≤ priceRat p ∧ priceRat p ≤ b)) ∧
      (p ∈ search_products store cid mp xp →
        p ∈ search_products store none none none) := by
  intro store cid mp xp p
  refine ⟨mem_search_products, ?_⟩
  intro h
  rw [mem_search_products] at h ⊢
  refine ⟨h.1, h.2.1, ?_, ?_⟩ <;> intros <;> simp_all

/-- C2 counterexample: `order_by('-created_at')` carries no id tiebreak.
Two active products with equal `created_at`, stored with the smaller id
first, come back in store order: the earlier result has the SMALLER id,
refuting the claimed `(created_at, id)`-descending total order. -/
theorem search_ordering_counterexample :
    search_products [tie_first, tie_second] none none none =
      [tie_first, tie_second] ∧
    tie_first.created_at = tie_second.created_at ∧
    ¬(tie_first.created_at > tie_second.created_at ∨
      (tie_first.created_at = tie_second.created_at ∧
        tie_first.id > tie_second.id)) := by decide

/-- C2 (amended): search results are ordered by `created_at` descending
(for `a` before `b`, `b.created_at ≤ a.created_at`); products with equal
`created_at` appear in an order the query does not constrain (modelled as
store order), with no id tiebreak. -/
theorem search_ordering_created_desc :
    ∀ (store : List Product) (cid : Option Int) (mp xp : Option Rat),
      (search_products store cid mp xp).Pairwise
        (fun a b => b.created_at ≤ a.created_at) := by
  intro store cid mp xp
  simp only [search_products]
  exact pairwise_order_by_created_desc _

/-- C3 (code bug, evaluated): a negative `min_price` is re-reported by the
handler's own `except` clause as the parse-failure message, wrapped by the
view's `'Invalid parameter: '` prefix — the claimed
`"Price cannot be negative"` body is never produced. -/
theorem negative_min_price_message :
    ∀ (store : List Product) (cats : List Category),
      product_search_view store cats none (some "-5") none =
        bad_request
          "Invalid parameter: min_price must be a valid dollar amount" ∧
      "Invalid parameter: min_price must be a valid dollar amount" ≠
        "Price cannot be negative" := by
  intro store cats
  exact ⟨rfl, by decide⟩

/-- C4: the price-range predicate is applied only when BOTH bounds are
present — supplying a single bound yields the very same result list as
supplying neither. -/
theorem single_bound_ignored :
    ∀ (store : List Product) (cid : Option Int) (m x : Rat),
      search_products store cid (some m) none =
        search_products store cid none none ∧
      search_products store cid none (some x) =
        search_products store cid none none := by
  intro store cid m x
  exact ⟨rfl, rfl⟩

/-- C5: `get_product_detail` is a keyed lookup with no active-only filter:
any stored product — in particular an inactive one — is returned by its
id (given that ids are unique, as the primary key is). -/
theorem detail_returns_inactive :
    ∀ (store : List Product) (p : Product),
      p ∈ store →
      (∀ q ∈ store, q.id = p.id → q = p) →
      get_product_detail store p.id = some p := by
  intro store p hmem huniq
  induction store with
  | nil => simp at hmem
  | cons q qs ih =>
    simp only [get_product_detail] at *
    by_cases h : q.id = p.id
    · have hq : q = p := huniq q (List.mem_cons_self q qs) h
      subst hq
      rw [List.find?_cons_of_pos _ (by simp)]
    · rw [List.find?_cons_of_neg _ (by simp [h])]
      rcases List.mem_cons.mp hmem with h1 | h1
      · subst h1; exact absurd rfl h
      · exact ih h1 (fun r hr hid => huniq r (List.mem_cons_of_mem _ hr) hid)

/-- C5 witness: the inactive `old_tablet` (excluded from every search) is
still retrieved by id. -/
theorem detail_returns_inactive_witness :
    old_tablet.is_active = false ∧
    get_product_detail demo_store 3 = some old_tablet :=
  ⟨rfl, detail_returns_inactive demo_store old_tablet (by decide) (by decide)⟩

/-- C6: once `category_id` and both prices have parsed successfully (in
that order — an earlier parse failure preempts this check) and
`min_price > max_price`, the view answers 400 with exactly
`'Minimum price cannot be greater than maximum price'`. -/
theorem min_greater_than_max_rejected :
    ∀ (store : List Product) (cats : List Category)
      (cp minp maxp : Option String) (cid : Option Int) (a b : Rat),
      get_category_id cp = Except.ok cid →
      get_price_range minp maxp = Except.ok (some a, some b) →
      a > b →
      product_search_view store cats cp minp maxp =
        bad_request "Minimum price cannot be greater than maximum price" := by
  intro store cats cp minp maxp cid a b h1 h2 h3
  simp only [product_search_view, h1, h2]
  rw [if_pos h3]

/-- C6 witness: `min_price=100`, `max_price=50`. -/
theorem min_greater_than_max_rejected_witness :
    product_search_view [] [] none (some "100") (some "50") =
      bad_request "Minimum price cannot be greater than maximum price" :=
  min_greater_than_max_rejected [] [] none (some "100") (some "50") none _ _
    rfl rfl (by decide)

/-- C7: the detail view answers 404 exactly when the keyed lookup finds no
product, and in that case the body is
`{'success': False, 'error': 'Product not found'}`. -/
theorem detail_not_found_iff :
    ∀ (store : List Product) (cats : List Category) (pid : Int),
      ((product_detail_view store cats pid).status = 404 ↔
        get_product_detail store pid = none) ∧
      (get_product_detail store pid = none →
        product_detail_view store cats pid = product_not_found) := by
  intro store cats pid
  cases h : get_product_detail store pid with
  | none => simp [product_detail_view, h, product_not_found]
  | some p => simp [product_detail_view, h]

/-- C8: both serializers emit `price` as the JSON STRING
`format_price p.price` (never a number); the emitted string parses back to
exactly the stored value `cents / 100` with no drift; and the stored
`599.99` renders as exactly `"599.99"`. -/
theorem price_serialized_as_decimal_string :
    (∀ (cats : List Category) (p : Product),
        json_field (serialize_product cats p) "price" =
          some (Json.str (format_price p.price))) ∧
    (∀ (cats : List Category) (p : Product),
        json_field (serialize_product_detail cats p) "price" =
          some (Json.str (format_price p.price))) ∧
    (∀ cents : Int,
        parse_decimal (format_price cents) = some ((cents : Rat) / 100)) ∧
    format_price 59999 = "599.99" := by
  refine ⟨fun cats p => rfl, fun cats p => rfl, parse_decimal_format_price, rfl⟩

/-- C9: `category_id=0` passes validation (parsing to `some 0`, as any
negative integer also passes — there is no positivity check) and is then
dropped by truthiness in `search_products`, so the request succeeds with
status 200 and returns exactly the unfiltered (all-active) result set. -/
theorem zero_category_id_accepted :
    ∀ (store : List Product) (cats : List Category),
      get_category_id (some "0") = Except.ok (some 0) ∧
      get_category_id (some "-7") = Except.ok (some (-7)) ∧
      (product_search_view store cats (some "0") none none).status = 200 ∧
      search_products store (some 0) none none =
        search_products store none none none := by
  intro store cats
  exact ⟨rfl, rfl, rfl, rfl⟩

/-- C10: one search request costs exactly one store round trip: the
queryset evaluates in a single joined query (`select_related('category')`)
and, provided every stored product's category exists (the foreign-key
invariant), serializing any number of rows triggers no lazy category
load. -/
theorem one_round_trip_per_search :
    ∀ (store : List Product) (cats : List Category) (cid : Option Int)
      (mp xp : Option Rat),
      (∀ p ∈ store, (cats.find? (fun c => c.id == p.category)).isSome) →
      search_round_trips store cats cid mp xp = 1 := by
  intro store cats cid mp xp hfk
  have hz : ((joined_rows store cats cid mp xp).map category_access_cost).sum
      = 0 := by
    apply List.sum_eq_zero
    intro x hx
    rcases List.mem_map.mp hx with ⟨row, hrow, hxeq⟩
    simp only [joined_rows] at hrow
    rcases List.mem_map.mp hrow with ⟨p, hp, hpeq⟩
    have hps : p ∈ store := (mem_search_products.mp hp).1
    rcases Option.isSome_iff_exists.mp (hfk p hps) with ⟨c, hc⟩
    rw [← hxeq, ← hpeq]
    simp [category_access_cost, hc]
  simp only [search_round_trips, hz]

/-- C10 witness: three products, one category table, any filters — one
round trip. -/
theorem one_round_trip_per_search_witness :
    search_round_trips demo_store [electronics] none none none = 1 :=
  one_round_trip_per_search demo_store [electronics] none none none
    (by decide)
